import Mathlib

/-!
Shallow embedding of the AI-user population generator of the
KieshStockExchange repository (files `Tools/Person.py` and
`Tools/GenerateAIUsers.py`).

Random draws are made explicit: every call to the `random` module is
replaced by an extra parameter (the drawn value), and theorems carry the
range the library guarantees for that draw as a hypothesis
(`random.uniform(a, b)` yields a value in `[a, b]`, `random.randint(lo, hi)`
an integer in `[lo, hi]`, `random.random()` a value in `[0, 1)`,
`random.sample(l, k)` a duplicate-free selection of `k` elements of `l`).
Python floats are idealised as `ℚ` (or `ℝ` where a real power is taken);
Python `//` is floor division, and `int(...)` truncates toward zero.
-/

namespace KSE

/-- Catalog of ticker symbols (`Person.py` line 10, `TICKERS`). -/
def TICKERS : List String :=
  ["MSFT", "NVDA", "AAPL", "AMZN", "GOOG", "META", "AVGO", "TSLA", "TSM", "WMT",
   "LLY", "V", "ORCL", "NFLX", "MA", "BAC", "ASML", "KO", "BABA", "MCD", "AMD"]

/-- Reference prices paired with their tickers (`Person.py` line 16, `PRICES`). -/
def PRICE_LIST : List (String × ℚ) :=
  [("MSFT", 51371/100), ("NVDA", 17350/100), ("AAPL", 21388/100), ("AMZN", 23144/100),
   ("GOOG", 19408/100), ("META", 71268/100), ("AVGO", 29018/100), ("TSLA", 31606/100),
   ("TSM", 2456/10), ("WMT", 9747/100), ("LLY", 81269/100), ("V", 35704/100),
   ("ORCL", 24512/100), ("NFLX", 118049/100), ("MA", 56822/100), ("BAC", 4845/100),
   ("ASML", 71125/100), ("KO", 6917/100), ("BABA", 12003/100), ("MCD", 29847/100),
   ("AMD", 16647/100)]

/-- Price lookup (`Person.py` `PRICES[s]`). -/
def PRICES (t : String) : ℚ := (PRICE_LIST.lookup t).getD 0

/-- Python `int(x)` on a rational: truncation toward zero. -/
def pyTrunc (x : ℚ) : ℤ := if 0 ≤ x then ⌊x⌋ else ⌈x⌉

/-- Embedding of `clamp01` (`Person.py` lines 45-47). -/
def clamp01 (x : ℚ) : ℚ := if x < 0 then 0 else if 1 < x then 1 else x

/-- Embedding of `jitter` (`Person.py` lines 59-65): multiply `x` by `1 + u` where `u` is
the `random.uniform(-rel, rel)` draw, passed explicitly. -/
def jitter (x u : ℚ) : ℚ := x * (1 + u)

lemma clamp01_nonneg (x : ℚ) : 0 ≤ clamp01 x := by
  unfold clamp01
  split
  · exact le_refl 0
  · split
    · exact zero_le_one
    · linarith [not_lt.mp (by assumption : ¬ x < 0)]

lemma clamp01_le_one (x : ℚ) : clamp01 x ≤ 1 := by
  unfold clamp01
  split
  · exact zero_le_one
  · split
    · exact le_refl 1
    · exact le_of_not_lt (by assumption)

/-! ### Trade limits (`Person.TradeLimits`, `Person.py` lines 159-185) -/

/-- Embedding of `per_pos_max` (`Person.py` lines 171-175): the jittered,
clamped aggressiveness-derived fraction, capped by `1.0 / max_stocks`.
`u` is the jitter draw (`random.uniform(-0.15, 0.15)`). -/
def per_pos_max (agg u : ℚ) (max_stocks : ℕ) : ℚ :=
  min (clamp01 (jitter (8/100 + 22/100 * agg) u)) (1 / max_stocks)

/-- Embedding of `min_trade_amount` (`Person.py` line 178): `u1` is the
`random.uniform(0.10, 0.30)` draw. -/
def min_trade_amount (ppm u1 : ℚ) : ℚ := ppm * u1

/-- Embedding of `max_trade_amount` (`Person.py` line 179): `u2` is the
`random.uniform(0.40, 0.80)` draw. -/
def max_trade_amount (ppm u2 : ℚ) : ℚ := ppm * u2

lemma per_pos_max_nonneg (agg u : ℚ) (ms : ℕ) : 0 ≤ per_pos_max agg u ms := by
  unfold per_pos_max
  refine le_min (clamp01_nonneg _) ?_
  positivity

/-- Claim C2: for every completed profile the trade-limit chain
`min_trade_amount ≤ max_trade_amount ≤ per_pos_max ≤ 1/max_stocks` holds,
where `per_pos_max` is the minimum of the aggressiveness-derived clamped
value and `1/max_stocks`; the hypotheses are exactly the ranges
`random.uniform` guarantees for its draws. -/
theorem C2_trade_limit_chain (agg u u1 u2 : ℚ) (ms : ℕ)
    (h1a : 1/10 ≤ u1) (h1b : u1 ≤ 3/10)
    (h2a : 2/5 ≤ u2) (h2b : u2 ≤ 4/5) :
    min_trade_amount (per_pos_max agg u ms) u1
      ≤ max_trade_amount (per_pos_max agg u ms) u2 ∧
    max_trade_amount (per_pos_max agg u ms) u2 ≤ per_pos_max agg u ms ∧
    per_pos_max agg u ms ≤ 1 / ms := by
  have hppm : 0 ≤ per_pos_max agg u ms := per_pos_max_nonneg agg u ms
  refine ⟨?_, ?_, ?_⟩
  · exact mul_le_mul_of_nonneg_left (by linarith) hppm
  · calc per_pos_max agg u ms * u2 ≤ per_pos_max agg u ms * 1 :=
          mul_le_mul_of_nonneg_left (by linarith) hppm
      _ = per_pos_max agg u ms := mul_one _
  · exact min_le_right _ _

/-- Witness for C2 at concrete draws. -/
theorem C2_trade_limit_chain_witness :
    ((1/10 : ℚ) ≤ 1/10 ∧ (1/10 : ℚ) ≤ 3/10 ∧ (2/5 : ℚ) ≤ 1/2 ∧ (1/2 : ℚ) ≤ 4/5) ∧
    (min_trade_amount (per_pos_max 0 0 10) (1/10)
        ≤ max_trade_amount (per_pos_max 0 0 10) (1/2) ∧
      max_trade_amount (per_pos_max 0 0 10) (1/2) ≤ per_pos_max 0 0 10 ∧
      per_pos_max 0 0 10 ≤ 1 / (10 : ℕ)) :=
  ⟨⟨by norm_num, by norm_num, by norm_num, by norm_num⟩,
    C2_trade_limit_chain 0 0 (1/10) (1/2) 10
      (by norm_num) (by norm_num) (by norm_num) (by norm_num)⟩

/-! ### Decision interval (`Person.TradeProperties`, `Person.py` lines 103-105) -/

/-- Embedding of `interval_seconds` (`Person.py` lines 104-105):
`int(max(1, jitter(20 - 12*aggressive*aggressive, rel=0.15)))`, with `u` the
jitter draw. -/
def interval_seconds (agg u : ℚ) : ℤ :=
  pyTrunc (max 1 (jitter (20 - 12 * agg * agg) u))

/-- Claim C9, counterexample: at `aggressive = 1` and jitter draw `7/80`
(inside the declared `[-0.15, 0.15]` range), the jittered base is `8.7`;
the code truncates `max 1 8.7` to `8`, while the claimed formula
`max(1, round(jitter(...)))` yields `9`. -/
theorem C9_counterexample :
    (-(3/20) ≤ (7/80 : ℚ) ∧ (7/80 : ℚ) ≤ 3/20) ∧
    interval_seconds 1 (7/80) = 8 ∧
    max 1 (round (jitter (20 - 12 * 1 * 1) (7/80) : ℚ)) = 9 ∧
    (8 : ℤ) ≠ 9 := by
  have h : jitter (20 - 12 * 1 * 1) (7/80) = (87/10 : ℚ) := by
    unfold jitter; norm_num
  refine ⟨⟨by norm_num, by norm_num⟩, ?_, ?_, by norm_num⟩
  · show pyTrunc (max 1 (jitter (20 - 12 * 1 * 1) (7/80))) = 8
    rw [h]
    have hmax : max (1 : ℚ) (87/10) = 87/10 := max_eq_right (by norm_num)
    unfold pyTrunc
    rw [hmax, if_pos (by norm_num)]
    rw [Int.floor_eq_iff]
    constructor <;> norm_num
  · rw [h]
    have hr : round ((87:ℚ)/10) = 9 := by
      rw [round_eq, Int.floor_eq_iff]
      constructor <;> norm_num
    rw [hr]; norm_num

/-- Claim C9, amended: the decision interval is
`int(max(1, jitter(20 - 12*agg², 0.15)))` — the jittered base is floored at 1
and then truncated toward zero (not rounded to nearest) — and it is a
positive integer for every aggressiveness and every jitter draw. -/
theorem C9_interval_positive (agg u : ℚ) :
    1 ≤ interval_seconds agg u ∧
    (interval_seconds agg u : ℚ) ≤ max 1 (jitter (20 - 12 * agg * agg) u) := by
  set x : ℚ := max 1 (jitter (20 - 12 * agg * agg) u) with hx
  have h1 : (1 : ℚ) ≤ x := le_max_left _ _
  have h0 : (0 : ℚ) ≤ x := le_trans zero_le_one h1
  have htr : interval_seconds agg u = ⌊x⌋ := by
    unfold interval_seconds pyTrunc
    rw [← hx, if_pos h0]
  constructor
  · rw [htr]; exact Int.le_floor.mpr (by exact_mod_cast h1)
  · rw [htr]; exact Int.floor_le x

/-! ### Equal-weight allocation (`Person.Portfolio`, `Person.py` lines 144-147) -/

/-- Embedding of `amount_per_stock` (`Person.py` line 146):
`balance * (1 - (min_cash*2 + max_cash)/3) // n_stocks` — Python `//` is
floor division, so the result is the floor of the true quotient (kept as a
rational, as Python keeps it as a float). -/
def amount_per_stock (balance min_cash max_cash : ℚ) (n : ℕ) : ℚ :=
  (⌊balance * (1 - (min_cash * 2 + max_cash) / 3) / n⌋ : ℤ)

/-- Share count for one instrument (`Person.py` line 147):
`int(amount_per_stock // PRICES[s])` — the inner `//` floors and `int` of the
already-integral float is exact. -/
def shares (amount price : ℚ) : ℤ := ⌊amount / price⌋

lemma amount_per_stock_scenario : amount_per_stock 10000 (1/10) (1/5) 2 = 4333 := by
  unfold amount_per_stock
  have hfl : ⌊(10000 * (1 - ((1/10 : ℚ) * 2 + 1/5) / 3) / ((2 : ℕ) : ℚ))⌋ = 4333 := by
    rw [Int.floor_eq_iff]
    constructor <;> norm_num
  rw [hfl]; norm_num

/-- Claim C5, counterexample: in the concrete scenario
`balance = 10000`, `n = 2`, `min_cash = 0.1`, `max_cash = 0.2`, the code's
floor division gives `amount_per_stock = 4333` exactly, whereas the claimed
exact (true) division gives `13000/3 ≈ 4333.33`; the two differ. -/
theorem C5_counterexample :
    amount_per_stock 10000 (1/10) (1/5) 2 = 4333 ∧
    (10000 * (1 - ((1/10) * 2 + 1/5) / 3) / 2 : ℚ) = 13000/3 ∧
    (4333 : ℚ) ≠ 13000/3 :=
  ⟨amount_per_stock_scenario, by norm_num, by norm_num⟩

/-- Claim C5, amended: `amount_per_stock` is the *floor* of
`balance * (1 - (2*min_cash + max_cash)/3) / n` (Python floor division, not
true division), each share count is `⌊amount_per_stock / price⌋`, and in the
concrete scenario (`balance = 10000`, `n = 2`, `min_cash = 0.1`,
`max_cash = 0.2`) the allocation is exactly `4333`, so each share count is
`⌊4333 / price⌋`. -/
theorem C5_floor_allocation (balance min_cash max_cash : ℚ) (n : ℕ) :
    amount_per_stock balance min_cash max_cash n
        ≤ balance * (1 - (min_cash * 2 + max_cash) / 3) / n ∧
    balance * (1 - (min_cash * 2 + max_cash) / 3) / n
        < amount_per_stock balance min_cash max_cash n + 1 ∧
    amount_per_stock 10000 (1/10) (1/5) 2 = 4333 ∧
    ∀ price : ℚ, shares (amount_per_stock 10000 (1/10) (1/5) 2) price
        = ⌊(4333 : ℚ) / price⌋ := by
  refine ⟨?_, ?_, amount_per_stock_scenario, ?_⟩
  · unfold amount_per_stock
    exact_mod_cast Int.floor_le _
  · unfold amount_per_stock
    exact Int.lt_floor_add_one _
  · intro price
    unfold shares
    rw [amount_per_stock_scenario]

/-! ### Position counts and watchlist (`Person.Portfolio`, `Person.py` lines 123-141) -/

/-- Contract of `random.randint`: for `lo ≤ hi` the draw lies in `[lo, hi]`. -/
def RandintOK (R : ℕ → ℕ → ℕ) : Prop :=
  ∀ lo hi, lo ≤ hi → lo ≤ R lo hi ∧ R lo hi ≤ hi

/-- Contract of `random.sample l k` for `k ≤ l.length`: a duplicate-free
selection of `k` elements of `l`. -/
def SampleOK (S : List String → ℕ → List String) : Prop :=
  ∀ l k, k ≤ l.length →
    (S l k).length = k ∧ (S l k) ⊆ l ∧ (l.Nodup → (S l k).Nodup)

/-- Embedding of `min_stocks` / `max_stocks` (`Person.py` lines 124-132): three
aggressiveness bands, each endpoint drawn with `random.randint`. -/
def min_max_stocks (agg : ℚ) (R : ℕ → ℕ → ℕ) : ℕ × ℕ :=
  if agg < 3/10 then (R 1 4, R 6 12)
  else if agg < 6/10 then (R 3 5, R 8 15)
  else (R 5 8, R 12 20)

/-- Embedding of `watchlist_size` (`Person.py` lines 135-136):
`min(len(TICKERS), max_stocks + watchlist_extra)` with
`watchlist_extra = random.randint(3, 8)`. -/
def watchlist_size (max_stocks extra : ℕ) : ℕ :=
  min TICKERS.length (max_stocks + extra)

/-- The watchlist itself (`Person.py` line 139):
`random.sample(TICKERS, watchlist_size)`. -/
def watchlistOf (agg : ℚ) (R : ℕ → ℕ → ℕ) (S : List String → ℕ → List String) :
    List String :=
  S TICKERS (watchlist_size (min_max_stocks agg R).2 (R 3 8))

lemma min_max_stocks_bounds (agg : ℚ) (R : ℕ → ℕ → ℕ) (hR : RandintOK R) :
    1 ≤ (min_max_stocks agg R).1 ∧
    (min_max_stocks agg R).1 < (min_max_stocks agg R).2 ∧
    (min_max_stocks agg R).2 ≤ 20 := by
  unfold min_max_stocks
  split
  · obtain ⟨hlo1, hhi1⟩ := hR 1 4 (by norm_num)
    obtain ⟨hlo2, hhi2⟩ := hR 6 12 (by norm_num)
    exact ⟨hlo1, by omega, by omega⟩
  · split
    · obtain ⟨hlo1, hhi1⟩ := hR 3 5 (by norm_num)
      obtain ⟨hlo2, hhi2⟩ := hR 8 15 (by norm_num)
      exact ⟨by omega, by omega, by omega⟩
    · obtain ⟨hlo1, hhi1⟩ := hR 5 8 (by norm_num)
      obtain ⟨hlo2, hhi2⟩ := hR 12 20 (by norm_num)
      exact ⟨by omega, by omega, by omega⟩

lemma TICKERS_length : TICKERS.length = 21 := by rfl

/-- Claim C4, counterexample: the band computation never consults the catalog
size, so there is no clamp to a 3-instrument catalog: at aggressiveness `0`
even the smallest possible draw (`random.randint` returning its lower bound,
a contract-respecting supplier) yields `max_stocks = 6 > 3`. -/
theorem C4_counterexample :
    (min_max_stocks 0 (fun lo _ => lo)).2 = 6 ∧
    ¬ ((min_max_stocks 0 (fun lo _ => lo)).2 ≤ 3) := by
  have h : min_max_stocks 0 (fun lo _ => lo) = (1, 6) := by
    unfold min_max_stocks
    rw [if_pos (by norm_num : (0 : ℚ) < 3/10)]
  rw [h]
  exact ⟨rfl, by omega⟩

/-- Claim C4, amended: for every completed profile (generated against the
fixed 21-instrument catalog), `1 ≤ min_stocks < max_stocks ≤ catalog size`;
the bound on `max_stocks` holds because every band maximum is at most 20,
not because of any clamp to the catalog size (no such clamp exists). -/
theorem C4_stock_count_bounds (agg : ℚ) (R : ℕ → ℕ → ℕ) (hR : RandintOK R) :
    1 ≤ (min_max_stocks agg R).1 ∧
    (min_max_stocks agg R).1 < (min_max_stocks agg R).2 ∧
    (min_max_stocks agg R).2 ≤ TICKERS.length := by
  obtain ⟨h1, h2, h3⟩ := min_max_stocks_bounds agg R hR
  exact ⟨h1, h2, by rw [TICKERS_length]; omega⟩

lemma randint_lo_ok : RandintOK (fun lo _ => lo) :=
  fun _ _ h => ⟨le_refl _, h⟩

/-- Witness for C4 at the lower-bound randint supplier and aggressiveness 0. -/
theorem C4_stock_count_bounds_witness :
    RandintOK (fun lo _ => lo) ∧
    (1 ≤ (min_max_stocks 0 (fun lo _ => lo)).1 ∧
      (min_max_stocks 0 (fun lo _ => lo)).1 < (min_max_stocks 0 (fun lo _ => lo)).2 ∧
      (min_max_stocks 0 (fun lo _ => lo)).2 ≤ TICKERS.length) :=
  ⟨randint_lo_ok, C4_stock_count_bounds 0 (fun lo _ => lo) randint_lo_ok⟩

/-- Claim C7: for every completed profile the watchlist is strictly larger than
`max_stocks` and no larger than the catalog: the drawn watchlist has length
`min(21, max_stocks + extra)` with `extra ≥ 3` and `max_stocks ≤ 20`. -/
theorem C7_watchlist_size (agg : ℚ) (R : ℕ → ℕ → ℕ)
    (S : List String → ℕ → List String) (hR : RandintOK R) (hS : SampleOK S) :
    (min_max_stocks agg R).2 < (watchlistOf agg R S).length ∧
    (watchlistOf agg R S).length ≤ TICKERS.length := by
  obtain ⟨_, _, hms⟩ := min_max_stocks_bounds agg R hR
  obtain ⟨hex, _⟩ := hR 3 8 (by norm_num)
  have hsz : watchlist_size (min_max_stocks agg R).2 (R 3 8) ≤ TICKERS.length :=
    min_le_left _ _
  have hlen : (watchlistOf agg R S).length
      = watchlist_size (min_max_stocks agg R).2 (R 3 8) :=
    (hS TICKERS _ hsz).1
  rw [hlen]
  constructor
  · unfold watchlist_size
    rw [TICKERS_length]
    omega
  · exact hsz

lemma sample_take_ok : SampleOK (fun l k => l.take k) := by
  intro l k hk
  refine ⟨?_, List.take_subset k l, fun hnd => hnd.sublist (List.take_sublist k l)⟩
  rw [List.length_take]
  omega

/-- Witness for C7 at concrete suppliers. -/
theorem C7_watchlist_size_witness :
    RandintOK (fun lo _ => lo) ∧ SampleOK (fun l k => l.take k) ∧
    ((min_max_stocks 0 (fun lo _ => lo)).2
        < (watchlistOf 0 (fun lo _ => lo) (fun l k => l.take k)).length ∧
      (watchlistOf 0 (fun lo _ => lo) (fun l k => l.take k)).length ≤ TICKERS.length) :=
  ⟨randint_lo_ok, sample_take_ok,
    C7_watchlist_size 0 (fun lo _ => lo) (fun l k => l.take k)
      randint_lo_ok sample_take_ok⟩

/-! ### Held portfolio (`Person.Portfolio`, `Person.py` lines 143-147) -/

/-- Embedding of `portfolio` (`Person.py` lines 144-145):
`sorted(random.sample(watchlist, random.randint(min_stocks, max_stocks)))`. -/
def portfolioOf (agg : ℚ) (R : ℕ → ℕ → ℕ) (S : List String → ℕ → List String) :
    List String :=
  (S (watchlistOf agg R S)
      (R (min_max_stocks agg R).1 (min_max_stocks agg R).2)).mergeSort
    (fun a b => decide (a ≤ b))

/-- Embedding of `holdings` (`Person.py` line 147):
`{ s: int(amount_per_stock // PRICES[s]) for s in portfolio }`, as an
association list keyed by the (duplicate-free) portfolio. -/
def holdingsOf (agg : ℚ) (R : ℕ → ℕ → ℕ) (S : List String → ℕ → List String)
    (amount : ℚ) : List (String × ℤ) :=
  (portfolioOf agg R S).map (fun s => (s, shares amount (PRICES s)))

lemma holdingsOf_keys (agg : ℚ) (R : ℕ → ℕ → ℕ)
    (S : List String → ℕ → List String) (amount : ℚ) :
    (holdingsOf agg R S amount).map Prod.fst = portfolioOf agg R S := by
  unfold holdingsOf
  rw [List.map_map]
  exact List.map_id _

lemma TICKERS_nodup : TICKERS.Nodup := by decide

/-- Claim C3: for every completed profile, the held instruments are a subset of
the watchlist, are pairwise distinct, and their number lies between
`min_stocks` and `max_stocks` inclusive (the held subset is sampled from the
watchlist, not from the full catalog). -/
theorem C3_portfolio_containment (agg amount : ℚ) (R : ℕ → ℕ → ℕ)
    (S : List String → ℕ → List String) (hR : RandintOK R) (hS : SampleOK S) :
    ((holdingsOf agg R S amount).map Prod.fst ⊆ watchlistOf agg R S) ∧
    ((holdingsOf agg R S amount).map Prod.fst).Nodup ∧
    (min_max_stocks agg R).1 ≤ ((holdingsOf agg R S amount).map Prod.fst).length ∧
    ((holdingsOf agg R S amount).map Prod.fst).length ≤ (min_max_stocks agg R).2 := by
  obtain ⟨hmn1, hmnmx, hmx20⟩ := min_max_stocks_bounds agg R hR
  -- the watchlist: a sample of the catalog, hence duplicate-free
  have hsz : watchlist_size (min_max_stocks agg R).2 (R 3 8) ≤ TICKERS.length :=
    min_le_left _ _
  obtain ⟨hwlen, _, hwnodup⟩ := hS TICKERS _ hsz
  have hwl_nodup : (watchlistOf agg R S).Nodup := hwnodup TICKERS_nodup
  -- the number of held instruments fits inside the watchlist
  obtain ⟨hn1, hn2⟩ := hR (min_max_stocks agg R).1 (min_max_stocks agg R).2
    (le_of_lt hmnmx)
  have hnle : R (min_max_stocks agg R).1 (min_max_stocks agg R).2
      ≤ (watchlistOf agg R S).length := by
    rw [show (watchlistOf agg R S).length
          = watchlist_size (min_max_stocks agg R).2 (R 3 8) from hwlen]
    unfold watchlist_size
    rw [TICKERS_length]
    omega
  obtain ⟨hslen, hssub, hsnodup⟩ := hS (watchlistOf agg R S) _ hnle
  -- transfer along the sort (a permutation)
  have hperm := List.mergeSort_perm
    (S (watchlistOf agg R S)
      (R (min_max_stocks agg R).1 (min_max_stocks agg R).2))
    (fun a b => decide (a ≤ b))
  rw [holdingsOf_keys]
  refine ⟨?_, ?_, ?_, ?_⟩
  · intro x hx
    exact hssub (hperm.mem_iff.mp hx)
  · exact (hperm.nodup_iff).mpr (hsnodup hwl_nodup)
  · unfold portfolioOf
    rw [hperm.length_eq, hslen]
    exact hn1
  · unfold portfolioOf
    rw [hperm.length_eq, hslen]
    exact hn2

/-- Witness for C3 at concrete suppliers. -/
theorem C3_portfolio_containment_witness :
    RandintOK (fun lo _ => lo) ∧ SampleOK (fun l k => l.take k) ∧
    (((holdingsOf 0 (fun lo _ => lo) (fun l k => l.take k) 4333).map Prod.fst
        ⊆ watchlistOf 0 (fun lo _ => lo) (fun l k => l.take k)) ∧
      ((holdingsOf 0 (fun lo _ => lo) (fun l k => l.take k) 4333).map Prod.fst).Nodup ∧
      (min_max_stocks 0 (fun lo _ => lo)).1
        ≤ ((holdingsOf 0 (fun lo _ => lo) (fun l k => l.take k) 4333).map Prod.fst).length ∧
      ((holdingsOf 0 (fun lo _ => lo) (fun l k => l.take k) 4333).map Prod.fst).length
        ≤ (min_max_stocks 0 (fun lo _ => lo)).2) :=
  ⟨randint_lo_ok, sample_take_ok,
    C3_portfolio_containment 0 4333 (fun lo _ => lo) (fun l k => l.take k)
      randint_lo_ok sample_take_ok⟩

/-! ### Starting balance (`Person.py` lines 67-71 and 114-116) -/

/-- Embedding of `sample_log_balance` (`Person.py` lines 67-71):
`int(min_base * (max_factor ** u))` with `u = random.random()` passed
explicitly; `int(...)` truncates toward zero. `Person.Portfolio` calls it
with `min_base = 10000`, `max_factor = 50` (`Person.py` line 116). -/
noncomputable def sample_log_balance (min_base max_factor u : ℝ) : ℤ :=
  if 0 ≤ min_base * max_factor ^ u then ⌊min_base * max_factor ^ u⌋
  else ⌈min_base * max_factor ^ u⌉

/-- Claim C10: for every draw `u ∈ [0, 1)` of `random.random()`, the starting
balance `sample_log_balance 10000 50 u` is an integer at least `10000`
(`= minBase`) and strictly below `500000` (`= minBase * maxFactor`). -/
theorem C10_balance_range (u : ℝ) (h0 : 0 ≤ u) (h1 : u < 1) :
    10000 ≤ sample_log_balance 10000 50 u ∧
    sample_log_balance 10000 50 u < 500000 := by
  have hge : (1 : ℝ) ≤ (50 : ℝ) ^ u := by
    calc (1 : ℝ) = (50 : ℝ) ^ (0 : ℝ) := (Real.rpow_zero 50).symm
      _ ≤ (50 : ℝ) ^ u := (Real.rpow_le_rpow_left_iff (by norm_num)).mpr h0
  have hlt : (50 : ℝ) ^ u < 50 := by
    calc (50 : ℝ) ^ u < (50 : ℝ) ^ (1 : ℝ) :=
          (Real.rpow_lt_rpow_left_iff (by norm_num)).mpr h1
      _ = 50 := Real.rpow_one 50
  have hprod_ge : (10000 : ℝ) ≤ 10000 * (50 : ℝ) ^ u := by nlinarith
  have hprod_lt : (10000 : ℝ) * (50 : ℝ) ^ u < 500000 := by nlinarith
  have hpos : (0 : ℝ) ≤ 10000 * (50 : ℝ) ^ u := by linarith
  unfold sample_log_balance
  rw [if_pos hpos]
  constructor
  · exact Int.le_floor.mpr (by exact_mod_cast hprod_ge)
  · exact Int.floor_lt.mpr (by exact_mod_cast hprod_lt)

/-- Witness for C10 at the draw `u = 0`. -/
theorem C10_balance_range_witness :
    (0 : ℝ) ≤ 0 ∧ (0 : ℝ) < 1 ∧
    (10000 ≤ sample_log_balance 10000 50 0 ∧
      sample_log_balance 10000 50 0 < 500000) :=
  ⟨le_refl 0, by norm_num, C10_balance_range 0 le_rfl (by norm_num)⟩

/-! ### Username generation (`Person.py` lines 7 and 35-43)

The external identity source (`fake.user_name()`) is modelled as a stream
`supplier : ℕ → String` of raw candidates together with the index of the next
candidate to draw; the `while True` retry loop is modelled with an explicit
attempt budget `fuel` (`none` means the loop has not returned within `fuel`
attempts — the Python loop itself has no such bound). -/

/-- Embedding of `"".join(ch for ch in raw if ch.isalnum())` (`Person.py` line 38). -/
def cleanString (s : String) : List Char :=
  s.toList.filter (fun ch => ch.isAlphanum)

/-- The regex `^[a-zA-Z0-9]{5,20}$` (`Person.py` line 7, `USERNAME_RE`). -/
def username_ok (c : List Char) : Bool :=
  decide (5 ≤ c.length) && decide (c.length ≤ 20) && c.all (fun ch => ch.isAlphanum)

/-- Embedding of `generate_username` (`Person.py` lines 35-43): clean the next raw
candidate, skip it when fewer than 5 alphanumeric characters remain,
otherwise trim to 20 characters and accept when the regex matches and the
name is unused; on acceptance return the name, the next stream position and
the enlarged used-name set. -/
def generate_username (supplier : ℕ → String) :
    ℕ → ℕ → List String → Option (String × ℕ × List String)
  | 0, _, _ => none
  | (fuel+1), i, used =>
    if (cleanString (supplier i)).length < 5 then
      generate_username supplier fuel (i+1) used
    else if username_ok (String.mk ((cleanString (supplier i)).take 20)).toList
        && !(used.contains (String.mk ((cleanString (supplier i)).take 20))) then
      some (String.mk ((cleanString (supplier i)).take 20), i+1,
        String.mk ((cleanString (supplier i)).take 20) :: used)
    else
      generate_username supplier fuel (i+1) used

/-- Claim C1: the handle supplier that constantly yields the alphanumeric
length-4 candidate `"abc1"` defeats the retry loop for *every* attempt
budget: no bound on the number of attempts makes the loop return, and the
loop raises nothing — the `while True` of `Person.py` line 36 therefore
spins forever instead of failing with an exhaustion error. -/
theorem C1_unbounded_retry :
    ∀ (fuel i : ℕ) (used : List String),
      generate_username (fun _ => "abc1") fuel i used = none := by
  intro fuel
  induction fuel with
  | zero => intro i used; rfl
  | succ n ih =>
    intro i used
    simp only [generate_username]
    rw [if_pos (show (cleanString "abc1").length < 5 by decide)]
    exact ih (i+1) used

/-! ### Identity allocation and batches
(`Person.py` lines 73-91, `GenerateAIUsers.py` lines 37-45) -/

/-- The class-level mutable state of `Person` (`Person.py` lines 74-75)
together with the identity source's stream position: `idx` is the next
numeric id, `usernames` the set of issued handles. -/
structure RegState where
  idx : ℕ
  pos : ℕ
  usernames : List String
  deriving DecidableEq

/-- The id/handle part of `Person.Identity` (`Person.py` lines 85-89):
`user_id = Person.idx`, `Person.idx += 1`, then a fresh username. -/
def identity_step (supplier : ℕ → String) (fuel : ℕ) (st : RegState) :
    Option ((ℕ × String) × RegState) :=
  match generate_username supplier fuel st.pos st.usernames with
  | none => none
  | some (u, pos2, used2) => some ((st.idx, u), ⟨st.idx + 1, pos2, used2⟩)

/-- The generation loop of `generate_aiuser_excel`
(`GenerateAIUsers.py` lines 41-45): create `n` persons sequentially,
collecting each one's `(user_id, username)` row. -/
def run_batch (supplier : ℕ → String) (fuel : ℕ) :
    ℕ → RegState → Option (List (ℕ × String) × RegState)
  | 0, st => some ([], st)
  | (n+1), st =>
    match identity_step supplier fuel st with
    | none => none
    | some (row, st2) =>
      match run_batch supplier fuel n st2 with
      | none => none
      | some (rows, stf) => some (row :: rows, stf)

/-- Embedding of `generate_aiuser_excel` (`GenerateAIUsers.py` lines 37-45): resets
`Person.idx` to 1 (line 38) and runs the loop; the class-level
`Person.usernames` set is *not* reset. -/
def generate_aiuser_excel (supplier : ℕ → String) (fuel n : ℕ) (st : RegState) :
    Option (List (ℕ × String) × RegState) :=
  run_batch supplier fuel n { st with idx := 1 }

lemma contains_false_not_mem {t : String} {used : List String}
    (h : used.contains t = false) : t ∉ used := by
  intro hmem
  have ht : used.contains t = true := List.elem_iff.mpr hmem
  rw [ht] at h
  exact Bool.noConfusion h

lemma generate_username_some (supplier : ℕ → String) :
    ∀ (fuel i : ℕ) (used : List String) (u : String) (j : ℕ) (used2 : List String),
      generate_username supplier fuel i used = some (u, j, used2) →
      u ∉ used ∧ used2 = u :: used := by
  intro fuel
  induction fuel with
  | zero => intro i used u j used2 h; exact absurd h (by simp [generate_username])
  | succ n ih =>
    intro i used u j used2 h
    simp only [generate_username] at h
    split at h
    · exact ih (i+1) used u j used2 h
    · split at h
      · rename_i hok
        simp only [Option.some.injEq, Prod.mk.injEq] at h
        obtain ⟨h1, h2, h3⟩ := h
        rw [Bool.and_eq_true] at hok
        obtain ⟨hok1, hok2⟩ := hok
        rw [h1] at hok2 h3
        have hcf : used.contains u = false := by
          cases hcu : used.contains u
          · rfl
          · rw [hcu] at hok2; exact absurd hok2 (by simp)
        exact ⟨contains_false_not_mem hcf, h3.symm⟩
      · exact ih (i+1) used u j used2 h

lemma run_batch_spec (supplier : ℕ → String) (fuel : ℕ) :
    ∀ (n : ℕ) (st : RegState) (rows : List (ℕ × String)) (stf : RegState),
      run_batch supplier fuel n st = some (rows, stf) →
      rows.map Prod.fst = List.range' st.idx n ∧
      (∀ u ∈ rows.map Prod.snd, u ∉ st.usernames) ∧
      (rows.map Prod.snd).Nodup ∧
      stf.usernames = (rows.map Prod.snd).reverse ++ st.usernames := by
  intro n
  induction n with
  | zero =>
    intro st rows stf h
    simp only [run_batch, Option.some.injEq, Prod.mk.injEq] at h
    obtain ⟨h1, h2⟩ := h
    subst h1; subst h2
    simp
  | succ n ih =>
    intro st rows stf h
    simp only [run_batch] at h
    split at h
    · simp at h
    · rename_i row st2 hstep
      split at h
      · simp at h
      · rename_i rows2 stf2 hrec
        simp only [Option.some.injEq, Prod.mk.injEq] at h
        obtain ⟨h1, h2⟩ := h
        subst h1; subst h2
        -- unpack the identity step
        unfold identity_step at hstep
        split at hstep
        · simp at hstep
        · rename_i u pos2 used2 hgen
          simp only [Option.some.injEq, Prod.mk.injEq] at hstep
          obtain ⟨hrow, hst2⟩ := hstep
          obtain ⟨hu_new, hused2⟩ :=
            generate_username_some supplier fuel st.pos st.usernames u pos2 used2 hgen
          obtain ⟨hids, hfresh, hnodup, husers⟩ := ih st2 rows2 stf2 hrec
          have hst2_idx : st2.idx = st.idx + 1 := by rw [← hst2]
          have hst2_users : st2.usernames = u :: st.usernames := by
            rw [← hst2]; exact hused2
          subst hrow
          refine ⟨?_, ?_, ?_, ?_⟩
          · simp only [List.map_cons, List.range'_succ]
            rw [hids, hst2_idx]
          · intro x hx
            rcases List.mem_cons.mp hx with hx1 | hx2
            · subst hx1; exact hu_new
            · intro hmem
              exact (hst2_users ▸ hfresh x hx2) (List.mem_cons_of_mem u hmem)
          · refine List.nodup_cons.mpr ⟨?_, hnodup⟩
            intro hmem
            exact (hst2_users ▸ hfresh u hmem) (List.mem_cons_self u st.usernames)
          · rw [husers, hst2_users]
            simp only [List.map_cons, List.reverse_cons, List.append_assoc,
              List.singleton_append]

/-- Claim C6: whenever a batch of size `n` completes, the numeric ids of its
rows are exactly `1, 2, …, n` in increasing order, and the issued handles
are pairwise distinct. -/
theorem C6_batch_uniqueness (supplier : ℕ → String) (fuel n : ℕ)
    (st : RegState) (rows : List (ℕ × String)) (stf : RegState)
    (h : generate_aiuser_excel supplier fuel n st = some (rows, stf)) :
    rows.map Prod.fst = List.range' 1 n ∧ (rows.map Prod.snd).Nodup := by
  obtain ⟨hids, _, hnodup, _⟩ :=
    run_batch_spec supplier fuel n { st with idx := 1 } rows stf h
  exact ⟨hids, hnodup⟩

/-- A two-candidate supplier used for concrete batch runs. -/
def supplierAB : ℕ → String := fun i => if i = 0 then "alice" else "bobby"

/-- Witness for C6: a concrete two-person batch started from a dirty id
counter; ids come out as `[1, 2]` and handles are distinct. -/
theorem C6_batch_uniqueness_witness :
    generate_aiuser_excel supplierAB 2 2 ⟨5, 0, []⟩
        = some ([(1, "alice"), (2, "bobby")], ⟨3, 2, ["bobby", "alice"]⟩) ∧
    ([(1, "alice"), (2, "bobby")].map Prod.fst = List.range' 1 2 ∧
      (([(1, "alice"), (2, "bobby")] : List (ℕ × String)).map Prod.snd).Nodup) :=
  ⟨by decide,
    C6_batch_uniqueness supplierAB 2 2 ⟨5, 0, []⟩ [(1, "alice"), (2, "bobby")]
      ⟨3, 2, ["bobby", "alice"]⟩ (by decide)⟩

/-- A constant supplier used to exhibit handle-state carry-over. -/
def supplierA : ℕ → String := fun _ => "alice"

/-- Claim C8, counterexample: re-invoking the builder does *not* start a
fresh handle set. A first one-person batch issues `"alice"`; re-invoking on
the resulting state fails (`none`) because `"alice"` is still recorded as
used, while the same invocation with the handle set cleared succeeds. Only
the id counter is reset (`GenerateAIUsers.py` line 38); `Person.usernames`
carries over. -/
theorem C8_counterexample :
    generate_aiuser_excel supplierA 3 1 ⟨1, 0, []⟩
        = some ([(1, "alice")], ⟨2, 1, ["alice"]⟩) ∧
    generate_aiuser_excel supplierA 3 1 ⟨2, 1, ["alice"]⟩ = none ∧
    generate_aiuser_excel supplierA 3 1 ⟨2, 1, []⟩
        = some ([(1, "alice")], ⟨2, 2, ["alice"]⟩) :=
  ⟨by decide, by decide, by decide⟩

/-- Claim C8, amended: re-invoking the Population Builder resets the id
counter to 1 — so ids are again `1, …, n` whatever the previous counter
value — but the handle set persists across invocations: every handle issued
by the new batch avoids *all* handles recorded in the carried-over state. -/
theorem C8_reinvocation (supplier : ℕ → String) (fuel n : ℕ)
    (st : RegState) (rows : List (ℕ × String)) (stf : RegState)
    (h : generate_aiuser_excel supplier fuel n st = some (rows, stf)) :
    rows.map Prod.fst = List.range' 1 n ∧
    (∀ u ∈ rows.map Prod.snd, u ∉ st.usernames) ∧
    stf.usernames = (rows.map Prod.snd).reverse ++ st.usernames := by
  obtain ⟨hids, hfresh, _, husers⟩ :=
    run_batch_spec supplier fuel n { st with idx := 1 } rows stf h
  exact ⟨hids, hfresh, husers⟩

/-- Witness for C8 (amended): a batch started from a state already holding
the handle `"zulu1"` and id counter 7; ids restart at 1 and the new handles
avoid `"zulu1"`. -/
theorem C8_reinvocation_witness :
    generate_aiuser_excel supplierAB 2 2 ⟨7, 0, ["zulu1"]⟩
        = some ([(1, "alice"), (2, "bobby")], ⟨3, 2, ["bobby", "alice", "zulu1"]⟩) ∧
    ([(1, "alice"), (2, "bobby")].map Prod.fst = List.range' 1 2 ∧
      (∀ u ∈ (([(1, "alice"), (2, "bobby")] : List (ℕ × String)).map Prod.snd),
        u ∉ (⟨7, 0, ["zulu1"]⟩ : RegState).usernames) ∧
      (⟨3, 2, ["bobby", "alice", "zulu1"]⟩ : RegState).usernames
        = (([(1, "alice"), (2, "bobby")] : List (ℕ × String)).map Prod.snd).reverse
            ++ (⟨7, 0, ["zulu1"]⟩ : RegState).usernames) :=
  ⟨by decide,
    C8_reinvocation supplierAB 2 2 ⟨7, 0, ["zulu1"]⟩ [(1, "alice"), (2, "bobby")]
      ⟨3, 2, ["bobby", "alice", "zulu1"]⟩ (by decide)⟩

end KSE
